import Mathlib

/-!
Verification of the radar link client (`xep_radar_connector.py`): the
framing layer (`_read_response`), the decoder (`_process_frame`), the
session lifecycle (`open`, `close`, `update_chip`) and connection
establishment with retry (`_connect`), embedded shallowly.

Bytes are modelled as `Nat` values (0..255); a serial input stream is the
finite list of bytes the device will deliver, in order.  IEEE-754 32-bit
float elements are modelled by their 32-bit pattern assembled from four
consecutive payload bytes in native (little-endian) order; the decoder
claims under study are structural (grouping and pairing of elements), so
no floating-point arithmetic is interpreted.
-/

namespace Radar

/-- The 5-byte acknowledgement marker `<ACK>` (ASCII codes). -/
def ackMarker : List Nat := [60, 65, 67, 75, 62]

/-- The 5-byte error marker `<ERR>` (ASCII codes). -/
def errMarker : List Nat := [60, 69, 82, 82, 62]

/-- ASCII bytes of a string (all protocol text is ASCII). -/
def strBytes (s : String) : List Nat := s.toList.map Char.toNat

/-- Whitespace bytes stripped by Python `str.strip()` on ASCII text. -/
def isSpaceByte (b : Nat) : Bool := b = 9 || b = 10 || b = 11 || b = 12 || b = 13 || b = 32

/-- Model of `bytes.decode().strip()` restricted to the byte level:
strip leading and trailing whitespace bytes. -/
def trimBytes (l : List Nat) : List Nat :=
  ((l.dropWhile isSpaceByte).reverse.dropWhile isSpaceByte).reverse

/-- Result of `_read_response` / `_read_frame` on a finite input stream:
either an acknowledgement payload together with the unconsumed remainder
of the stream, a raised `ProtocolError` carrying the extracted device
text, or exhaustion of the stream with neither terminal condition met
(the Python loop would block forever waiting for more bytes). -/
inductive ReadResult where
  | ack (payload : List Nat) (rest : List Nat)
  | err (msg : List Nat)
  | blocked
  deriving Repr, DecidableEq

/-- The accumulation loop of `_read_response`: read one byte, append it,
then test — first whether the last 5 accumulated bytes equal `<ACK>`
(return everything before them), then whether the first 5 accumulated
bytes equal `<ERR>` (raise `ProtocolError` with the bytes after the
marker, decoded and stripped). -/
def readResponseAux (acc : List Nat) : List Nat → ReadResult
  | [] => .blocked
  | b :: rest =>
    let acc2 := acc ++ [b]
    if 5 ≤ acc2.length ∧ acc2.drop (acc2.length - 5) = ackMarker then
      .ack (acc2.take (acc2.length - 5)) rest
    else if 5 ≤ acc2.length ∧ acc2.take 5 = errMarker then
      .err (trimBytes (acc2.drop 5))
    else
      readResponseAux acc2 rest

/-- `_read_response` starting from an empty accumulator.  (`_read_frame`
has the identical loop body and differs only in the prose of the raised
error message, so it is modelled by the same function.) -/
def readResponse (stream : List Nat) : ReadResult :=
  readResponseAux [] stream

/-- The stream of claim C1: `<ERR>Bad register\n`. -/
def errBadRegisterStream : List Nat := errMarker ++ strBytes "Bad register\n"

example : readResponse (strBytes "7" ++ ackMarker) = .ack (strBytes "7") [] := by decide

example : readResponse errBadRegisterStream = .err [] := by decide

/-! ## Decoder (`_process_frame`) -/

/-- Errors raised by numpy inside `_process_frame`: `np.frombuffer`
raises `ValueError` when the buffer size is not a multiple of the 4-byte
element size, and array addition raises `ValueError` when operand shapes
cannot broadcast. -/
inductive DecErr where
  | bufferSize
  | broadcastMismatch
  deriving Repr, DecidableEq

/-- Reinterpret a byte sequence as consecutive 32-bit words in native
(little-endian) byte order; each word is the bit pattern of one IEEE-754
32-bit float element. -/
def bytesToWords : List Nat → List Nat
  | b0 :: b1 :: b2 :: b3 :: rest =>
      (b0 + 256 * b1 + 65536 * b2 + 16777216 * b3) :: bytesToWords rest
  | _ => []

/-- The 32-bit float element at index `j` of a payload, as in the spec:
the word assembled from bytes `4j .. 4j+3`. -/
def floatElem (frame : List Nat) (j : Nat) : Nat :=
  frame.getD (4 * j) 0 + 256 * frame.getD (4 * j + 1) 0 +
    65536 * frame.getD (4 * j + 2) 0 + 16777216 * frame.getD (4 * j + 3) 0

/-- `np.frombuffer(frame, dtype=np.float32)`: requires the length to be a
multiple of the element size, then reinterprets. -/
def npFrombufferF32 (frame : List Nat) : Except DecErr (List Nat) :=
  if frame.length % 4 = 0 then .ok (bytesToWords frame) else .error .bufferSize

/-- Every other element, starting at the head: the numpy slice `[::2]`. -/
def everyOther : List α → List α
  | [] => []
  | [a] => [a]
  | a :: _ :: rest => a :: everyOther rest

/-- `data[::2] + 1j * data[1::2]` at the structural level: numpy pairs
elementwise when the two slices have equal length, broadcasts a length-1
operand over the other (including over an empty one), and otherwise
raises a shape-mismatch `ValueError`.  A pair `(re, im)` stands for the
complex sample with those real and imaginary float elements. -/
def complexCombine (re im : List Nat) : Except DecErr (List (Nat × Nat)) :=
  if re.length = im.length then .ok (re.zip im)
  else if im.length = 1 then .ok (re.map (fun a => (a, im.headD 0)))
  else if re.length = 1 then .ok (im.map (fun b => (re.headD 0, b)))
  else .error .broadcastMismatch

/-- Decoded frame: real-valued samples (float elements unchanged) or
complex samples (pairs of float elements). -/
inductive DecodedFrame where
  | realSamples (samples : List Nat)
  | complexSamples (samples : List (Nat × Nat))
  deriving Repr, DecidableEq

/-- `_process_frame`: reinterpret the payload as float32 elements; when
the down-converter flag is set, combine even- and odd-indexed elements
into complex samples, otherwise return the elements unchanged. -/
def processFrame (downConverter : Bool) (frame : List Nat) : Except DecErr DecodedFrame :=
  match npFrombufferF32 frame with
  | .error e => .error e
  | .ok data =>
    if downConverter then
      match complexCombine (everyOther data) (everyOther (data.drop 1)) with
      | .error e => .error e
      | .ok pairs => .ok (.complexSamples pairs)
    else .ok (.realSamples data)

example : processFrame false [1, 0, 0, 0, 0, 2, 0, 0] = .ok (.realSamples [1, 512]) := rfl
example : processFrame true [1, 0, 0, 0, 0, 2, 0, 0] = .ok (.complexSamples [(1, 512)]) := rfl
example : processFrame true [1, 0, 0] = .error .bufferSize := rfl
example : processFrame true [1, 0, 0, 0, 2, 0, 0, 0, 3, 0, 0, 0] =
    .ok (.complexSamples [(1, 2), (3, 2)]) := rfl
example : processFrame true [1, 0, 0, 0] = .ok (.complexSamples []) := rfl
example : processFrame true (List.replicate 20 0) = .error .broadcastMismatch := rfl

/-! ## Session layer -/

/-- The Python exception classes raised by the connector. -/
inductive PyErr where
  | connectionError (msg : String)
  | protocolError (deviceText : List Nat)
  | radarError (msg : String)
  | intValueError
  | numpyValueError (e : DecErr)
  deriving Repr, DecidableEq

/-- Mutable state of `XEPRadarConnector`: `_is_open`, `_num_samplers`,
`_x4_down_converter`, and whether `_serial` is attached (not `None`). -/
structure SessionState where
  isOpen : Bool
  numSamplers : Int
  x4DownConverter : Bool
  serialAttached : Bool
  deriving Repr, DecidableEq

/-- State set by `__init__` before `_connect` runs. -/
def initState : SessionState :=
  { isOpen := false, numSamplers := 0, x4DownConverter := false, serialAttached := false }

/-- How a session operation ended: normal return, a raised exception, or
blocking forever inside a byte-accumulation loop. -/
inductive Outcome where
  | ok
  | raised (e : PyErr)
  | hangs
  deriving Repr, DecidableEq

/-- Result of a session operation: the state after it, the commands it
wrote to the serial port (in order, without the appended newline), the
outcome, and the unconsumed remainder of the input stream. -/
structure OpResult where
  state : SessionState
  written : List String
  outcome : Outcome
  rest : List Nat
  deriving Repr, DecidableEq

/-- `_write_command`: raises `ConnectionError` when `_serial` is `None`,
otherwise writes the command bytes. -/
def writeCommand (st : SessionState) (cmd : String) : Except PyErr String :=
  if st.serialAttached then .ok cmd
  else .error (.connectionError "Serial connection not established")

/-- Python `int(text)` on the decoded payload: optional surrounding
whitespace, optional sign, then at least one decimal digit. -/
def isDigitByte (b : Nat) : Bool := 48 ≤ b && b ≤ 57

/-- Value of a nonempty all-digit byte string. -/
def digitsVal (l : List Nat) : Nat := l.foldl (fun a b => 10 * a + (b - 48)) 0

/-- Parse the acknowledgement payload as a decimal integer, as
`int(response.decode())` does; `none` means `ValueError`. -/
def parseIntBytes (l : List Nat) : Option Int :=
  match trimBytes l with
  | 45 :: ds => if ds ≠ [] ∧ ds.all isDigitByte then some (-(digitsVal ds : Int)) else none
  | 43 :: ds => if ds ≠ [] ∧ ds.all isDigitByte then some (digitsVal ds) else none
  | ds => if ds ≠ [] ∧ ds.all isDigitByte then some (digitsVal ds) else none

/-- `_update_samplers`: send `VarGetValue_ByName(SamplersPerFrame)`, read
the acknowledgement, parse its payload as an integer and store it. -/
def updateSamplers (st : SessionState) (stream : List Nat) : OpResult :=
  match writeCommand st "VarGetValue_ByName(SamplersPerFrame)" with
  | .error e => ⟨st, [], .raised e, stream⟩
  | .ok cmd =>
    match readResponse stream with
    | .blocked => ⟨st, [cmd], .hangs, []⟩
    | .err m => ⟨st, [cmd], .raised (.protocolError m), []⟩
    | .ack payload rest =>
      match parseIntBytes payload with
      | none => ⟨st, [cmd], .raised .intValueError, rest⟩
      | some v => ⟨{ st with numSamplers := v }, [cmd], .ok, rest⟩

/-- `open(connect_string)`: raises `RadarError` when already open;
otherwise sends `OpenRadar(...)`, waits for the acknowledgement, marks
the session open, then runs the samplers query. -/
def openOp (st : SessionState) (connectString : String) (stream : List Nat) : OpResult :=
  if st.isOpen then
    ⟨st, [], .raised (.radarError "Radar connection already open"), stream⟩
  else
    match writeCommand st ("OpenRadar(" ++ connectString ++ ")") with
    | .error e => ⟨st, [], .raised e, stream⟩
    | .ok cmd =>
      match readResponse stream with
      | .blocked => ⟨st, [cmd], .hangs, []⟩
      | .err m => ⟨st, [cmd], .raised (.protocolError m), []⟩
      | .ack _ rest =>
        let st1 := { st with isOpen := true }
        let r := updateSamplers st1 rest
        ⟨r.state, cmd :: r.written, r.outcome, r.rest⟩

/-- `close()`: a no-op when already closed; otherwise sends `Close()`,
waits for the acknowledgement, and only then clears `_is_open` and
releases the serial handle.  There is no `try`/`finally`: an exception
while waiting propagates with the state untouched. -/
def closeOp (st : SessionState) (stream : List Nat) : OpResult :=
  if st.isOpen then
    match writeCommand st "Close()" with
    | .error e => ⟨st, [], .raised e, stream⟩
    | .ok cmd =>
      match readResponse stream with
      | .blocked => ⟨st, [cmd], .hangs, []⟩
      | .err m => ⟨st, [cmd], .raised (.protocolError m), []⟩
      | .ack _ rest =>
        ⟨{ st with isOpen := false, serialAttached := false }, [cmd], .ok, rest⟩
  else ⟨st, [], .ok, stream⟩

/-- The register names aliased to the down-converter flag. -/
def isDownConverterName (name : String) : Bool :=
  name = "ddc_en" || name = "DownConvert"

/-- `update_chip(name, value)`: when `name` is a down-converter alias,
set `_x4_down_converter = bool(value)` first; then send the register
write, await the acknowledgement, and re-run the samplers query. -/
def updateChipOp (st : SessionState) (name : String) (value : Int) (stream : List Nat) :
    OpResult :=
  let st1 := if isDownConverterName name then
    { st with x4DownConverter := decide (value ≠ 0) } else st
  match writeCommand st1 ("VarSetValue_ByName(" ++ name ++ "," ++ toString value ++ ")") with
  | .error e => ⟨st1, [], .raised e, stream⟩
  | .ok cmd =>
    match readResponse stream with
    | .blocked => ⟨st1, [cmd], .hangs, []⟩
    | .err m => ⟨st1, [cmd], .raised (.protocolError m), []⟩
    | .ack _ rest =>
      let r := updateSamplers st1 rest
      ⟨r.state, cmd :: r.written, r.outcome, r.rest⟩

/-- Result of `get_frame_raw` / `get_frame_normalized`: a decoded frame
and the unconsumed stream, a raised exception, or blocking forever. -/
inductive FrameOutcome where
  | frame (d : DecodedFrame) (rest : List Nat)
  | raised (e : PyErr)
  | hangs
  deriving Repr, DecidableEq

/-- `get_frame_raw()`: send the request, read a frame, decode it with
the session's current down-converter mode.  (`get_frame_normalized()` is
identical except for the command text.) -/
def getFrameRaw (st : SessionState) (stream : List Nat) : FrameOutcome :=
  match writeCommand st "GetFrameRaw()" with
  | .error e => .raised e
  | .ok _ =>
    match readResponse stream with
    | .blocked => .hangs
    | .err m => .raised (.protocolError m)
    | .ack payload rest =>
      match processFrame st.x4DownConverter payload with
      | .error e => .raised (.numpyValueError e)
      | .ok d => .frame d rest

/-! ## Connection establishment (`_connect`) -/

/-- Result of `_connect`: success at some 0-based attempt index, a raised
`ConnectionError` after the final failed attempt, a `ProtocolError` from
the handshake (uncaught by the retry loop), blocking inside the handshake
read, or falling through a zero-iteration loop with no serial attached. -/
inductive ConnectResult where
  | connected (attempt : Nat)
  | connectionFailure
  | protocolFailure (deviceText : List Nat)
  | blocked
  | fellThrough
  deriving Repr, DecidableEq

/-- The retry loop of `_connect`: at each attempt, try to open the
serial port (`openOk attempt`); on success run the
`NVA_CreateHandle()` handshake against `handshakeStream` and return; on a
`SerialException`, warn, and raise `ConnectionError` only when this was
the last attempt. -/
def connectAux (openOk : Nat → Bool) (handshakeStream : List Nat) :
    Nat → Nat → ConnectResult
  | 0, _ => .fellThrough
  | remaining + 1, attempt =>
    if openOk attempt then
      match readResponse handshakeStream with
      | .ack _ _ => .connected attempt
      | .err m => .protocolFailure m
      | .blocked => .blocked
    else if remaining = 0 then .connectionFailure
    else connectAux openOk handshakeStream remaining (attempt + 1)

/-- `_connect` with `retry_attempts = n`, starting at attempt 0. -/
def connect (n : Nat) (openOk : Nat → Bool) (handshakeStream : List Nat) : ConnectResult :=
  connectAux openOk handshakeStream n 0

example : connect 3 (fun i => i = 2) ackMarker = .connected 2 := by decide
example : connect 3 (fun _ => false) ackMarker = .connectionFailure := by decide
example : connect 0 (fun _ => true) ackMarker = .fellThrough := by decide

/-! ## Decoder lemmas -/

theorem getD_cons_add4 (b0 b1 b2 b3 : Nat) (rest : List Nat) (n : Nat) :
    (b0 :: b1 :: b2 :: b3 :: rest).getD (n + 4) 0 = rest.getD n 0 := by
  have h : n + 4 = (((n + 1) + 1) + 1) + 1 := by omega
  rw [h, List.getD_cons_succ, List.getD_cons_succ, List.getD_cons_succ, List.getD_cons_succ]

theorem floatElem_cons4 (b0 b1 b2 b3 : Nat) (rest : List Nat) (i : Nat) :
    floatElem (b0 :: b1 :: b2 :: b3 :: rest) (i + 1) = floatElem rest i := by
  unfold floatElem
  have e0 : 4 * (i + 1) = 4 * i + 4 := by ring
  have e1 : 4 * (i + 1) + 1 = (4 * i + 1) + 4 := by ring
  have e2 : 4 * (i + 1) + 2 = (4 * i + 2) + 4 := by ring
  have e3 : 4 * (i + 1) + 3 = (4 * i + 3) + 4 := by ring
  rw [e1, e2, e3, e0, getD_cons_add4, getD_cons_add4, getD_cons_add4, getD_cons_add4]

theorem bytesToWords_length (l : List Nat) : (bytesToWords l).length = l.length / 4 := by
  match l with
  | b0 :: b1 :: b2 :: b3 :: rest =>
    have ih := bytesToWords_length rest
    simp only [bytesToWords, List.length_cons, ih]
    omega
  | [] => rfl
  | [_] => simp [bytesToWords]
  | [_, _] => simp [bytesToWords]
  | [_, _, _] => simp [bytesToWords]

theorem bytesToWords_getD (l : List Nat) (i : Nat) (h : 4 * i + 4 ≤ l.length) :
    (bytesToWords l).getD i 0 = floatElem l i := by
  match l, i with
  | b0 :: b1 :: b2 :: b3 :: rest, 0 => rfl
  | b0 :: b1 :: b2 :: b3 :: rest, i + 1 =>
    have ih := bytesToWords_getD rest i (by simp only [List.length_cons] at h; omega)
    rw [floatElem_cons4]
    simpa only [bytesToWords, List.getD_cons_succ] using ih
  | [], _ => simp only [List.length_nil] at h; omega
  | [_], _ => simp only [List.length_cons, List.length_nil] at h; omega
  | [_, _], _ => simp only [List.length_cons, List.length_nil] at h; omega
  | [_, _, _], _ => simp only [List.length_cons, List.length_nil] at h; omega

theorem everyOther_length (l : List α) : (everyOther l).length = (l.length + 1) / 2 := by
  match l with
  | [] => simp [everyOther]
  | [_] => simp [everyOther]
  | _ :: _ :: rest =>
    have ih := everyOther_length rest
    simp only [everyOther, List.length_cons, ih]
    omega

theorem everyOther_getD (l : List α) (i : Nat) (d : α) :
    (everyOther l).getD i d = l.getD (2 * i) d := by
  match l, i with
  | [], _ => simp [everyOther]
  | [a], 0 => rfl
  | [a], i + 1 =>
    have h : 2 * (i + 1) = (2 * i + 1) + 1 := by omega
    simp [everyOther, h, List.getD_cons_succ]
  | a :: b :: rest, 0 => rfl
  | a :: b :: rest, i + 1 =>
    have ih := everyOther_getD rest i d
    have h : 2 * (i + 1) = (2 * i + 1) + 1 := by omega
    simp only [everyOther, h, List.getD_cons_succ]
    exact ih

theorem getD_drop_one (l : List α) (n : Nat) (d : α) :
    (l.drop 1).getD n d = l.getD (n + 1) d := by
  match l with
  | [] => simp
  | a :: rest => simp [List.getD_cons_succ]

theorem zip_getD (l : List α) (m : List β) (i : Nat) (d : α) (e : β)
    (h1 : i < l.length) (h2 : i < m.length) :
    (l.zip m).getD i (d, e) = (l.getD i d, m.getD i e) := by
  match l, m, i with
  | a :: l', b :: m', 0 => rfl
  | a :: l', b :: m', i + 1 =>
    have ih := zip_getD l' m' i d e (by simpa using h1) (by simpa using h2)
    simpa [List.getD_cons_succ] using ih
  | [], _, _ => simp at h1
  | _ :: _, [], _ => simp at h2

/-- With the down-converter enabled and an `8n`-byte payload,
`_process_frame` returns the zip of even- and odd-indexed elements. -/
theorem processFrame_true_eq (frame : List Nat) (n : Nat) (h : frame.length = 8 * n) :
    processFrame true frame = .ok (.complexSamples
      ((everyOther (bytesToWords frame)).zip (everyOther ((bytesToWords frame).drop 1)))) := by
  have h4 : frame.length % 4 = 0 := by omega
  have hw : (bytesToWords frame).length = 2 * n := by rw [bytesToWords_length]; omega
  have he : (everyOther (bytesToWords frame)).length = n := by
    rw [everyOther_length, hw]; omega
  have ho : (everyOther ((bytesToWords frame).drop 1)).length = n := by
    rw [everyOther_length, List.length_drop, hw]; omega
  have hcc : complexCombine (everyOther (bytesToWords frame))
      (everyOther ((bytesToWords frame).drop 1)) =
      .ok ((everyOther (bytesToWords frame)).zip (everyOther ((bytesToWords frame).drop 1))) := by
    unfold complexCombine
    rw [if_pos (he.trans ho.symm)]
  have hred : processFrame true frame =
      (match complexCombine (everyOther (bytesToWords frame))
          (everyOther ((bytesToWords frame).drop 1)) with
        | .error e => Except.error e
        | .ok pairs => Except.ok (.complexSamples pairs)) := by
    unfold processFrame npFrombufferF32
    rw [if_pos h4]
    rfl
  rw [hred, hcc]

/-- Full characterization of complex-mode decoding of an `8n`-byte
payload: `n` samples, sample `i` pairing elements `2i` and `2i+1`. -/
theorem processFrame_complex_full (frame : List Nat) (n : Nat) (h : frame.length = 8 * n) :
    ∃ samples, processFrame true frame = .ok (.complexSamples samples) ∧
      samples.length = n ∧
      ∀ i, i < n →
        samples.getD i (0, 0) = (floatElem frame (2 * i), floatElem frame (2 * i + 1)) := by
  have hw : (bytesToWords frame).length = 2 * n := by rw [bytesToWords_length]; omega
  have he : (everyOther (bytesToWords frame)).length = n := by
    rw [everyOther_length, hw]; omega
  have ho : (everyOther ((bytesToWords frame).drop 1)).length = n := by
    rw [everyOther_length, List.length_drop, hw]; omega
  refine ⟨_, processFrame_true_eq frame n h, ?_, ?_⟩
  · rw [List.length_zip, he, ho, Nat.min_self]
  · intro i hi
    rw [zip_getD _ _ i 0 0 (by omega) (by omega), everyOther_getD, everyOther_getD,
      getD_drop_one, bytesToWords_getD _ _ (by omega), bytesToWords_getD _ _ (by omega)]

/-- With the down-converter disabled, a `4n`-byte payload decodes to the
reinterpreted elements unchanged. -/
theorem processFrame_real_full (frame : List Nat) (n : Nat) (h : frame.length = 4 * n) :
    ∃ samples, processFrame false frame = .ok (.realSamples samples) ∧
      samples.length = n ∧
      ∀ i, i < n → samples.getD i 0 = floatElem frame i := by
  have h4 : frame.length % 4 = 0 := by omega
  refine ⟨bytesToWords frame, ?_, ?_, ?_⟩
  · unfold processFrame npFrombufferF32
    rw [if_pos h4]
    rfl
  · rw [bytesToWords_length]; omega
  · intro i hi
    exact bytesToWords_getD _ _ (by omega)

/-- A payload whose length is not a multiple of 4 makes `np.frombuffer`
raise, in either mode. -/
theorem processFrame_bufferSize (dc : Bool) (frame : List Nat) (h : frame.length % 4 ≠ 0) :
    processFrame dc frame = .error .bufferSize := by
  unfold processFrame npFrombufferF32
  rw [if_neg h]

/-- In complex mode, a payload holding an odd number of at least 5 float
elements makes the slice addition raise a shape-mismatch error. -/
theorem processFrame_true_broadcast (frame : List Nat)
    (h4 : frame.length % 4 = 0) (h8 : frame.length % 8 ≠ 0) (h20 : 20 ≤ frame.length) :
    processFrame true frame = .error .broadcastMismatch := by
  have hw : (bytesToWords frame).length = frame.length / 4 := bytesToWords_length frame
  have he : (everyOther (bytesToWords frame)).length = (frame.length / 4 + 1) / 2 := by
    rw [everyOther_length, hw]
  have ho : (everyOther ((bytesToWords frame).drop 1)).length = (frame.length / 4 - 1 + 1) / 2 := by
    rw [everyOther_length, List.length_drop, hw]
  have hne : (everyOther (bytesToWords frame)).length ≠
      (everyOther ((bytesToWords frame).drop 1)).length := by
    rw [he, ho]; omega
  have hi1 : (everyOther ((bytesToWords frame).drop 1)).length ≠ 1 := by rw [ho]; omega
  have hr1 : (everyOther (bytesToWords frame)).length ≠ 1 := by rw [he]; omega
  have hcc : complexCombine (everyOther (bytesToWords frame))
      (everyOther ((bytesToWords frame).drop 1)) = .error .broadcastMismatch := by
    unfold complexCombine
    rw [if_neg hne, if_neg hi1, if_neg hr1]
  have hred : processFrame true frame =
      (match complexCombine (everyOther (bytesToWords frame))
          (everyOther ((bytesToWords frame).drop 1)) with
        | .error e => Except.error e
        | .ok pairs => Except.ok (.complexSamples pairs)) := by
    unfold processFrame npFrombufferF32
    rw [if_pos h4]
    rfl
  rw [hred, hcc]

/-- In complex mode a 4-byte payload is *not* rejected: the length-1 even
slice broadcasts against the empty odd slice, yielding an empty result. -/
theorem processFrame_true_len4 (frame : List Nat) (h : frame.length = 4) :
    processFrame true frame = .ok (.complexSamples []) := by
  have h4 : frame.length % 4 = 0 := by omega
  have hw : (bytesToWords frame).length = 1 := by rw [bytesToWords_length, h]
  obtain ⟨w, hwl⟩ := List.length_eq_one.mp hw
  have hred : processFrame true frame =
      (match complexCombine (everyOther (bytesToWords frame))
          (everyOther ((bytesToWords frame).drop 1)) with
        | .error e => Except.error e
        | .ok pairs => Except.ok (.complexSamples pairs)) := by
    unfold processFrame npFrombufferF32
    rw [if_pos h4]
    rfl
  rw [hred, hwl]
  rfl

/-- In complex mode a 12-byte payload is *not* rejected: the length-1 odd
slice broadcasts over both even elements, silently yielding 2 samples. -/
theorem processFrame_true_len12 (frame : List Nat) (h : frame.length = 12) :
    ∃ s1 s2, processFrame true frame = .ok (.complexSamples [s1, s2]) := by
  have h4 : frame.length % 4 = 0 := by omega
  have hw : (bytesToWords frame).length = 3 := by rw [bytesToWords_length, h]
  obtain ⟨w0, w1, w2, hwl⟩ := List.length_eq_three.mp hw
  refine ⟨(w0, w1), (w2, w1), ?_⟩
  have hred : processFrame true frame =
      (match complexCombine (everyOther (bytesToWords frame))
          (everyOther ((bytesToWords frame).drop 1)) with
        | .error e => Except.error e
        | .ok pairs => Except.ok (.complexSamples pairs)) := by
    unfold processFrame npFrombufferF32
    rw [if_pos h4]
    rfl
  rw [hred, hwl]
  rfl

/-! ## Framing-layer lemmas -/

/-- Invariant of the `_read_response` loop: if the full stream `s` is at
least 5 bytes, does not start with `<ERR>`, ends with `<ACK>`, and no
occurrence of `<ACK>` finishes before the end of the stream, then from
any split of `s` into consumed prefix `acc` and pending suffix `stream`
the loop returns all bytes before the final marker. -/
theorem readResponseAux_ack (s : List Nat) (h5 : 5 ≤ s.length)
    (hErr : s.take 5 ≠ errMarker)
    (hEnd : s.drop (s.length - 5) = ackMarker)
    (hU : ∀ k, k < s.length → 5 ≤ k → (s.take k).drop (k - 5) ≠ ackMarker) :
    ∀ stream acc, acc ++ stream = s → stream ≠ [] →
      readResponseAux acc stream = .ack (s.take (s.length - 5)) [] := by
  intro stream
  induction stream with
  | nil => intro acc _ hne; exact absurd rfl hne
  | cons b rest ih =>
    intro acc hs _
    have hs2 : (acc ++ [b]) ++ rest = s := by simpa using hs
    simp only [readResponseAux]
    by_cases hrest : rest = []
    · subst hrest
      have hacc2 : acc ++ [b] = s := by simpa using hs2
      rw [hacc2, if_pos ⟨h5, hEnd⟩]
    · have hlt : (acc ++ [b]).length < s.length := by
        have hr0 : rest.length ≠ 0 := fun hc => hrest (List.length_eq_zero.mp hc)
        rw [← hs2]
        simp only [List.length_append, List.length_cons, List.length_nil]
        omega
      have hpre : s.take (acc ++ [b]).length = acc ++ [b] := by
        rw [← hs2]; exact List.take_left _ _
      have hc1 : ¬(5 ≤ (acc ++ [b]).length ∧
          (acc ++ [b]).drop ((acc ++ [b]).length - 5) = ackMarker) := by
        rintro ⟨hk, hdrop⟩
        exact hU (acc ++ [b]).length hlt hk (by rw [hpre]; exact hdrop)
      have hc2 : ¬(5 ≤ (acc ++ [b]).length ∧ (acc ++ [b]).take 5 = errMarker) := by
        rintro ⟨hk, htake⟩
        apply hErr
        rw [← hs2, List.take_append_eq_append_take,
          show 5 - (acc ++ [b]).length = 0 by omega, List.take_zero, List.append_nil]
        exact htake
      rw [if_neg hc1, if_neg hc2]
      exact ih (acc ++ [b]) hs2 hrest

/-- `_read_response` on a stream whose only `<ACK>` occurrence is its
final 5 bytes and which does not start with `<ERR>` returns every byte
before the trailing marker. -/
theorem readResponse_trailing_ack (s : List Nat) (h5 : 5 ≤ s.length)
    (hErr : s.take 5 ≠ errMarker)
    (hEnd : s.drop (s.length - 5) = ackMarker)
    (hU : ∀ k, k < s.length → 5 ≤ k → (s.take k).drop (k - 5) ≠ ackMarker) :
    readResponse s = .ack (s.take (s.length - 5)) [] :=
  readResponseAux_ack s h5 hErr hEnd hU s [] rfl
    (fun hc => by rw [hc] at h5; simp at h5)

/-! ## Connection lemmas -/

theorem connectAux_success (openOk : Nat → Bool) (hs : List Nat) (p r : List Nat)
    (hack : readResponse hs = .ack p r) :
    ∀ remaining attempt, 1 ≤ remaining →
      (∀ i, attempt ≤ i → i + 1 < attempt + remaining → openOk i = false) →
      openOk (attempt + remaining - 1) = true →
      connectAux openOk hs remaining attempt = .connected (attempt + remaining - 1) := by
  intro remaining
  induction remaining with
  | zero => intro attempt h1; omega
  | succ r' ih =>
    intro attempt _ hfail hsucc
    unfold connectAux
    by_cases hr : r' = 0
    · subst hr
      have hok : openOk attempt = true := by
        have h := hsucc
        rwa [show attempt + 1 - 1 = attempt by omega] at h
      rw [if_pos hok, hack]
      rfl
    · have hok : openOk attempt = false := hfail attempt le_rfl (by omega)
      rw [if_neg (by simp [hok]), if_neg hr]
      have hres := ih (attempt + 1) (by omega)
        (fun i hi1 hi2 => hfail i (by omega) (by omega))
        (by rwa [show attempt + 1 + r' - 1 = attempt + (r' + 1) - 1 by omega])
      rw [hres]
      congr 1
      omega

theorem connectAux_allFail (openOk : Nat → Bool) (hs : List Nat) :
    ∀ remaining attempt, 1 ≤ remaining →
      (∀ i, attempt ≤ i → i < attempt + remaining → openOk i = false) →
      connectAux openOk hs remaining attempt = .connectionFailure := by
  intro remaining
  induction remaining with
  | zero => intro attempt h1; omega
  | succ r' ih =>
    intro attempt _ hfail
    unfold connectAux
    have hok : openOk attempt = false := hfail attempt le_rfl (by omega)
    rw [if_neg (by simp [hok])]
    by_cases hr : r' = 0
    · subst hr
      rw [if_pos rfl]
    · rw [if_neg hr]
      exact ih (attempt + 1) (by omega) (fun i hi1 hi2 => hfail i (by omega) (by omega))

/-! ## Session-layer lemmas -/

/-- The samplers query never touches the down-converter flag. -/
theorem updateSamplers_flag (st : SessionState) (stream : List Nat) :
    (updateSamplers st stream).state.x4DownConverter = st.x4DownConverter := by
  unfold updateSamplers
  split
  · rfl
  · split
    · rfl
    · rfl
    · split
      · rfl
      · rfl

/-- `update_chip` on a down-converter alias leaves the flag at
`bool(value)` on every control path (the flag is set before the command
is even written, so also when writing or reading fails). -/
theorem updateChipOp_flag (st : SessionState) (name : String) (v : Int) (stream : List Nat)
    (h : isDownConverterName name = true) :
    (updateChipOp st name v stream).state.x4DownConverter = decide (v ≠ 0) := by
  simp only [updateChipOp]
  rw [if_pos h]
  split
  · rfl
  · split
    · rfl
    · rfl
    · rw [updateSamplers_flag]

/-! ## Claims -/

/-- Claim C1 (code evaluated at the failing input): on the byte stream
`<ERR>Bad register\n` the reader raises `ProtocolError` as soon as the
five marker bytes have been accumulated, before any message byte is
consumed, so the extracted device text is empty — not the trimmed
device-supplied text "Bad register" that the trailing bytes carry. -/
theorem c1_err_message_empty :
    readResponse errBadRegisterStream = .err [] ∧
    trimBytes (errBadRegisterStream.drop 5) = strBytes "Bad register" := by
  decide

/-- Claim C2 counterexample: the stream `<ACK><ACK>` ends in the 5 bytes
`<ACK>` and does not begin with `<ERR>`, yet `_read_response` returns the
empty payload — it stops at the first marker occurrence — and not the 5
bytes that precede the trailing marker. -/
theorem c2_counterexample :
    ((ackMarker ++ ackMarker).drop ((ackMarker ++ ackMarker).length - 5) = ackMarker ∧
      (ackMarker ++ ackMarker).take 5 ≠ errMarker) ∧
    readResponse (ackMarker ++ ackMarker) = .ack [] ackMarker ∧
    (ackMarker ++ ackMarker).take ((ackMarker ++ ackMarker).length - 5) ≠ [] := by
  decide

/-- Claim C2 (amended): for every stream whose last 5 bytes are `<ACK>`,
which does not begin with `<ERR>`, and in which no occurrence of `<ACK>`
ends before the end of the stream, `_read_response` returns successfully
with the payload equal to every byte before the trailing marker. -/
theorem c2_trailing_ack (s : List Nat) (h5 : 5 ≤ s.length)
    (hErr : s.take 5 ≠ errMarker)
    (hEnd : s.drop (s.length - 5) = ackMarker)
    (hU : ∀ k, k < s.length → 5 ≤ k → (s.take k).drop (k - 5) ≠ ackMarker) :
    readResponse s = .ack (s.take (s.length - 5)) [] :=
  readResponse_trailing_ack s h5 hErr hEnd hU

/-- Witness for C2 (amended) at the concrete stream `OK<ACK>`. -/
theorem c2_trailing_ack_witness :
    readResponse (strBytes "OK" ++ ackMarker) =
      .ack ((strBytes "OK" ++ ackMarker).take ((strBytes "OK" ++ ackMarker).length - 5)) [] :=
  c2_trailing_ack (strBytes "OK" ++ ackMarker) (by decide) (by decide) (by decide) (by decide)

/-- Claim C3: a payload of `8n` bytes with down-conversion enabled
decodes to exactly `n` complex samples; sample `i` has real part equal to
float element `2i` and imaginary part equal to float element `2i+1`. -/
theorem c3_complex_decode (frame : List Nat) (n : Nat) (h : frame.length = 8 * n) :
    ∃ samples, processFrame true frame = .ok (.complexSamples samples) ∧
      samples.length = n ∧
      ∀ i, i < n →
        samples.getD i (0, 0) = (floatElem frame (2 * i), floatElem frame (2 * i + 1)) :=
  processFrame_complex_full frame n h

/-- Witness for C3 at a concrete 8-byte payload. -/
theorem c3_complex_decode_witness :
    ∃ samples, processFrame true [1, 0, 0, 0, 2, 0, 0, 0] = .ok (.complexSamples samples) ∧
      samples.length = 1 ∧
      ∀ i, i < 1 →
        samples.getD i (0, 0) = (floatElem [1, 0, 0, 0, 2, 0, 0, 0] (2 * i),
          floatElem [1, 0, 0, 0, 2, 0, 0, 0] (2 * i + 1)) :=
  c3_complex_decode [1, 0, 0, 0, 2, 0, 0, 0] 1 (by decide)

/-- Claim C4: a payload of `4n` bytes with down-conversion disabled
decodes to exactly `n` real samples, the direct reinterpretation of the
payload as 32-bit float elements, in order and unchanged. -/
theorem c4_real_decode (frame : List Nat) (n : Nat) (h : frame.length = 4 * n) :
    ∃ samples, processFrame false frame = .ok (.realSamples samples) ∧
      samples.length = n ∧
      ∀ i, i < n → samples.getD i 0 = floatElem frame i :=
  processFrame_real_full frame n h

/-- Witness for C4 at a concrete 8-byte payload. -/
theorem c4_real_decode_witness :
    ∃ samples, processFrame false [3, 0, 0, 0, 4, 0, 0, 0] = .ok (.realSamples samples) ∧
      samples.length = 2 ∧
      ∀ i, i < 2 → samples.getD i 0 = floatElem [3, 0, 0, 0, 4, 0, 0, 0] i :=
  c4_real_decode [3, 0, 0, 0, 4, 0, 0, 0] 2 (by decide)

/-- Claim C5 counterexample: with down-conversion enabled, a 12-byte
payload — whose length is not a multiple of 8 — does not fail at all:
numpy broadcasts the single odd-indexed element and the decode returns
two complex samples. -/
theorem c5_counterexample :
    (List.replicate 12 0).length % 8 ≠ 0 ∧
    processFrame true (List.replicate 12 0) = .ok (.complexSamples [(0, 0), (0, 0)]) :=
  ⟨by decide, rfl⟩

/-- Claim C5 (amended): there is no dedicated decode error type; a
payload whose length is not a multiple of 4 fails with the buffer-size
`ValueError` in either mode; in complex mode a payload whose length is a
multiple of 4 but not of 8 fails with a shape-mismatch `ValueError` when
it holds at least 5 float elements, but is silently mis-decoded when it
holds 1 element (empty result) or 3 elements (two broadcast samples). -/
theorem c5_length_errors (dc : Bool) (frame : List Nat) :
    (frame.length % 4 ≠ 0 → processFrame dc frame = .error .bufferSize) ∧
    (frame.length % 4 = 0 → frame.length % 8 ≠ 0 → 20 ≤ frame.length →
      processFrame true frame = .error .broadcastMismatch) ∧
    (frame.length = 4 → processFrame true frame = .ok (.complexSamples [])) ∧
    (frame.length = 12 →
      ∃ s1 s2, processFrame true frame = .ok (.complexSamples [s1, s2])) :=
  ⟨fun h => processFrame_bufferSize dc frame h,
   fun h4 h8 h20 => processFrame_true_broadcast frame h4 h8 h20,
   fun h => processFrame_true_len4 frame h,
   fun h => processFrame_true_len12 frame h⟩

/-- Witness for C5 (amended) at concrete payloads of lengths 1, 20, 4
and 12. -/
theorem c5_length_errors_witness :
    processFrame false [9] = .error .bufferSize ∧
    processFrame true (List.replicate 20 1) = .error .broadcastMismatch ∧
    processFrame true [5, 6, 7, 8] = .ok (.complexSamples []) ∧
    (∃ s1 s2, processFrame true (List.replicate 12 1) = .ok (.complexSamples [s1, s2])) :=
  ⟨(c5_length_errors false [9]).1 (by decide),
   (c5_length_errors true (List.replicate 20 1)).2.1 (by decide) (by decide) (by decide),
   (c5_length_errors true [5, 6, 7, 8]).2.2.1 (by decide),
   (c5_length_errors true (List.replicate 12 1)).2.2.2 (by decide)⟩

/-- Claim C6 counterexample: `close()` on an open session whose device
answers the close command with an `<ERR>` frame raises `ProtocolError`
and neither releases the transport handle nor marks the session closed —
the acknowledgement failure does prevent releasing local resources. -/
theorem c6_counterexample :
    (closeOp ⟨true, 0, false, true⟩ errMarker).outcome = .raised (.protocolError []) ∧
    (closeOp ⟨true, 0, false, true⟩ errMarker).state.serialAttached = true ∧
    (closeOp ⟨true, 0, false, true⟩ errMarker).state.isOpen = true := by
  decide

/-- Claim C6 (amended): `close()` on an open session sends the close
command and releases the transport handle and marks the session closed
exactly when the wait for the acknowledgement succeeds; when the device
answers with an error frame, the `ProtocolError` propagates and the
session is left open with the transport handle still attached. -/
theorem c6_close_release (st : SessionState) (stream : List Nat)
    (hopen : st.isOpen = true) (hser : st.serialAttached = true) :
    (∀ p r, readResponse stream = .ack p r →
      closeOp st stream =
        ⟨{ st with isOpen := false, serialAttached := false }, ["Close()"], .ok, r⟩) ∧
    (∀ m, readResponse stream = .err m →
      closeOp st stream = ⟨st, ["Close()"], .raised (.protocolError m), []⟩) := by
  constructor
  · intro p r hack
    unfold closeOp writeCommand
    rw [if_pos hopen, if_pos hser, hack]
  · intro m herr
    unfold closeOp writeCommand
    rw [if_pos hopen, if_pos hser, herr]

/-- Witness for C6 (amended): both branches at concrete sessions. -/
theorem c6_close_release_witness :
    closeOp ⟨true, 3, false, true⟩ ackMarker =
      ⟨⟨false, 3, false, false⟩, ["Close()"], .ok, []⟩ ∧
    closeOp ⟨true, 3, false, true⟩ errMarker =
      ⟨⟨true, 3, false, true⟩, ["Close()"], .raised (.protocolError []), []⟩ :=
  ⟨(c6_close_release ⟨true, 3, false, true⟩ ackMarker rfl rfl).1 [] [] (by decide),
   (c6_close_release ⟨true, 3, false, true⟩ errMarker rfl rfl).2 [] (by decide)⟩

/-- Claim C7: with `retry_attempts = N ≥ 1` and a handshake that
acknowledges, failing transport-open on attempts `1..N-1` but succeeding
on attempt `N` yields a connected session with no error surfaced, while
failing on all `N` attempts raises exactly one `ConnectionError` (and no
session object escapes). -/
theorem c7_retry (n : Nat) (openOk : Nat → Bool) (hs p r : List Nat)
    (hn : 1 ≤ n) (hack : readResponse hs = .ack p r) :
    ((∀ i, i + 1 < n → openOk i = false) → openOk (n - 1) = true →
      connect n openOk hs = .connected (n - 1)) ∧
    ((∀ i, i < n → openOk i = false) → connect n openOk hs = .connectionFailure) := by
  constructor
  · intro hfail hsucc
    have h2 := connectAux_success openOk hs p r hack n 0 hn
      (fun i _ hi2 => hfail i (by omega))
      (by rw [Nat.zero_add]; exact hsucc)
    rw [Nat.zero_add] at h2
    exact h2
  · intro hfail
    exact connectAux_allFail openOk hs n 0 hn (fun i _ hi2 => hfail i (by omega))

/-- Witness for C7: three attempts where only the third open succeeds,
and three attempts that all fail. -/
theorem c7_retry_witness :
    connect 3 (fun i => i == 2) ackMarker = .connected 2 ∧
    connect 3 (fun _ => false) ackMarker = .connectionFailure :=
  ⟨(c7_retry 3 (fun i => i == 2) ackMarker [] [] (by decide) (by decide)).1
      (fun i hi => by
        have h2 : i < 2 := by omega
        interval_cases i <;> rfl) (by decide),
   (c7_retry 3 (fun _ => false) ackMarker [] [] (by decide) (by decide)).2
      (fun i _ => rfl)⟩

/-- Claim C8: `open()` on an already-open session raises the
already-open `RadarError`, writes no command to the device, and leaves
the whole session state (including `samples_per_frame` and the
down-converter flag) unchanged. -/
theorem c8_already_open (st : SessionState) (cs : String) (stream : List Nat)
    (h : st.isOpen = true) :
    openOp st cs stream =
      ⟨st, [], .raised (.radarError "Radar connection already open"), stream⟩ := by
  unfold openOp
  rw [if_pos h]

/-- Witness for C8 at a concrete open session. -/
theorem c8_already_open_witness :
    openOp ⟨true, 5, true, true⟩ "X4" ackMarker =
      ⟨⟨true, 5, true, true⟩, [], .raised (.radarError "Radar connection already open"),
        ackMarker⟩ :=
  c8_already_open ⟨true, 5, true, true⟩ "X4" ackMarker rfl

/-- Claim C9: after `update_chip` on a down-converter alias with value
`v`, the session's decoding mode equals `bool(v)` on every control path
(the flag is set before the command is sent), and a frame decoded with
the resulting mode decodes in complex mode when `v ≠ 0` and in real mode
when `v = 0`, independent of the payload content. -/
theorem c9_ddc_mode (st : SessionState) (name : String) (v : Int) (stream : List Nat)
    (hname : name = "ddc_en" ∨ name = "DownConvert") :
    ((updateChipOp st name v stream).state.x4DownConverter = decide (v ≠ 0)) ∧
    (v ≠ 0 → ∀ frame n, frame.length = 8 * n → ∃ samples,
      processFrame (updateChipOp st name v stream).state.x4DownConverter frame =
        .ok (.complexSamples samples) ∧ samples.length = n) ∧
    (v = 0 → ∀ frame n, frame.length = 4 * n → ∃ samples,
      processFrame (updateChipOp st name v stream).state.x4DownConverter frame =
        .ok (.realSamples samples) ∧ samples.length = n) := by
  have halias : isDownConverterName name = true := by
    cases hname with
    | inl h => rw [h]; rfl
    | inr h => rw [h]; rfl
  have hflag := updateChipOp_flag st name v stream halias
  refine ⟨hflag, ?_, ?_⟩
  · intro hv frame n hlen
    rw [hflag, decide_eq_true hv]
    obtain ⟨samples, h1, h2, _⟩ := processFrame_complex_full frame n hlen
    exact ⟨samples, h1, h2⟩
  · intro hv frame n hlen
    rw [hflag, show decide (v ≠ 0) = false by simp [hv]]
    obtain ⟨samples, h1, h2, _⟩ := processFrame_real_full frame n hlen
    exact ⟨samples, h1, h2⟩

/-- Witness for C9 at `update_chip("ddc_en", 1)` from the initial state
with an empty stream (the flag is set even though the write fails). -/
theorem c9_ddc_mode_witness :
    ((updateChipOp initState "ddc_en" 1 []).state.x4DownConverter = decide ((1 : Int) ≠ 0)) ∧
    ((1 : Int) ≠ 0 → ∀ frame n, frame.length = 8 * n → ∃ samples,
      processFrame (updateChipOp initState "ddc_en" 1 []).state.x4DownConverter frame =
        .ok (.complexSamples samples) ∧ samples.length = n) ∧
    ((1 : Int) = 0 → ∀ frame n, frame.length = 4 * n → ∃ samples,
      processFrame (updateChipOp initState "ddc_en" 1 []).state.x4DownConverter frame =
        .ok (.realSamples samples) ∧ samples.length = n) :=
  c9_ddc_mode initState "ddc_en" 1 [] (Or.inl rfl)

/-- Claim C10: with `retry_attempts = 0` the connection loop performs
zero attempts and `_connect` returns normally — no transport is opened
and no `ConnectionError` raised — leaving `_serial` unattached, so the
first subsequent command write raises `ConnectionError("Serial connection
not established")`. -/
theorem c10_zero_retries (openOk : Nat → Bool) (hs : List Nat) (cmd : String) :
    connect 0 openOk hs = .fellThrough ∧
    writeCommand initState cmd = .error (.connectionError "Serial connection not established") :=
  ⟨rfl, rfl⟩

end Radar
